import Mathlib

/-!
Verification of the dhelp path/file abstraction, text-transform pipeline and
web fetch utility against their specification.  Python code is shallowly
embedded: pure string transforms become Lean functions on `List Char`/`String`,
filesystem-touching methods become explicit state passing over a small
filesystem model, and raising code returns `Except`.
-/

namespace Dhelp

/-! ### Python-level values and errors -/

/-- Kinds of exceptions the library raises (kinds, not concrete Python types). -/
inductive PyErr where
  | construction
  | notFound
  | alreadyExists
  | wrongKind
  | typeError
  | copyErr
  | removeErr
  deriving DecidableEq, Repr

/-- Outcomes of fallible calls are compared in witnesses, so equality of
`Except` values must be decidable. -/
instance {ε α : Type} [DecidableEq ε] [DecidableEq α] : DecidableEq (Except ε α) :=
  fun x y =>
    match x, y with
    | .error a, .error b =>
      if h : a = b then .isTrue (by rw [h]) else .isFalse (fun hh => by cases hh; exact h rfl)
    | .ok a, .ok b =>
      if h : a = b then .isTrue (by rw [h]) else .isFalse (fun hh => by cases hh; exact h rfl)
    | .error _, .ok _ => .isFalse (fun hh => Except.noConfusion hh)
    | .ok _, .error _ => .isFalse (fun hh => Except.noConfusion hh)

/-- Python values that can be handed to `Path.__init__` as the path argument.
List elements are irrelevant to truthiness and type checks, so `Int` suffices. -/
inductive PyVal where
  | vNone
  | vStr (s : String)
  | vInt (n : Int)
  | vBool (b : Bool)
  | vList (l : List Int)
  deriving DecidableEq, Repr

/-- Python truthiness of a `PyVal` (`bool(x)`). -/
def truthy : PyVal → Bool
  | .vNone => false
  | .vStr s => !s.data.isEmpty
  | .vInt n => n != 0
  | .vBool b => b
  | .vList l => !l.isEmpty

/-- Python `type(x) is str`. -/
def isStr : PyVal → Bool
  | .vStr _ => true
  | _ => false

/-! ### web/web_page.py -/

namespace WebPage

/-- Embeds `WebPage.fetch` in the scenario the claim fixes: the host is
unreachable, so every `requests.get` raises.  `fetch` then always takes the
`except` branch: with `max_retries = 0` it calls itself forever (modeled as
`none`); otherwise, while `retry_counter <= max_retries` it recurses with the
counter incremented, and past the limit it returns Python `None`.  The result
carries the returned value together with the total number of `requests.get`
attempts made. -/
def fetch_unreachable (max_retries : Nat) (retry_counter : Nat) :
    Option (Option String × Nat) :=
  if max_retries = 0 then
    none
  else if _h : retry_counter ≤ max_retries then
    match fetch_unreachable max_retries (retry_counter + 1) with
    | some (r, n) => some (r, n + 1)
    | none => none
  else
    some (none, 1)
termination_by max_retries + 1 - retry_counter
decreasing_by omega

end WebPage

/-! ### text/_bases.py : the cleanup transforms on raw strings -/

/-- Characters Python treats as whitespace: the set matched by `\s` in `re`
(for `str` patterns) and stripped by `str.strip()`. -/
def isPySpace (c : Char) : Bool :=
  decide ((9 ≤ c.toNat ∧ c.toNat ≤ 13) ∨ (28 ≤ c.toNat ∧ c.toNat ≤ 31) ∨
    c.toNat = 32 ∨ c.toNat = 0x85 ∨ c.toNat = 0xA0 ∨ c.toNat = 0x1680 ∨
    (0x2000 ≤ c.toNat ∧ c.toNat ≤ 0x200A) ∨ c.toNat = 0x2028 ∨
    c.toNat = 0x2029 ∨ c.toNat = 0x202F ∨ c.toNat = 0x205F ∨ c.toNat = 0x3000)

/-- Aids `re.sub(r'\s+', ' ', s)`: every maximal run of whitespace becomes one
space (emitted at the last character of the run). -/
def collapseWS : List Char → List Char
  | [] => []
  | [c] => if isPySpace c then [' '] else [c]
  | c :: d :: rest =>
    if isPySpace c then
      if isPySpace d then collapseWS (d :: rest)
      else ' ' :: collapseWS (d :: rest)
    else c :: collapseWS (d :: rest)

/-- Leading-whitespace removal half of `str.strip()`. -/
def lstripWS (l : List Char) : List Char := l.dropWhile (fun c => isPySpace c)

/-- Trailing-whitespace removal half of `str.strip()`. -/
def rstripWS : List Char → List Char
  | [] => []
  | c :: rest =>
    let r := rstripWS rest
    if r.isEmpty then (if isPySpace c then [] else [c]) else c :: r

/-- `BaseText.rm_spaces` on the wrapped string:
`re.sub(r'\s+', ' ', data).strip()`. -/
def rm_spaces_data (s : String) : String :=
  ⟨rstripWS (lstripWS (collapseWS s.data))⟩

/-- Normal form produced by the whitespace collapse: every whitespace
character is a plain space and no two adjacent characters are both
whitespace. -/
def wsnormal : List Char → Bool
  | [] => true
  | [c] => !isPySpace c || c == ' '
  | c :: d :: rest => (!isPySpace c || (c == ' ' && !isPySpace d)) && wsnormal (d :: rest)

/-- The first character, when present, is not whitespace. -/
def headOK : List Char → Bool
  | [] => true
  | c :: _ => !isPySpace c

/-- The last character, when present, is not whitespace. -/
def lastOK : List Char → Bool
  | [] => true
  | [c] => !isPySpace c
  | _ :: d :: rest => lastOK (d :: rest)

/-- Aids `re.sub(r'\n+', ' ', s)`: maximal runs of newlines become one space. -/
def collapseNL : List Char → List Char
  | [] => []
  | [c] => if c = '\n' then [' '] else [c]
  | c :: d :: rest =>
    if c = '\n' then
      if d = '\n' then collapseNL (d :: rest)
      else ' ' :: collapseNL (d :: rest)
    else c :: collapseNL (d :: rest)

/-- Python `str.replace(pat, rep)`: non-overlapping matches replaced left to
right, the replacement never rescanned.  Fuel starts at the list length, which
every step strictly decreases below, so the fuel-0 branch is unreachable. -/
def pyReplaceAux (pat rep : List Char) : Nat → List Char → List Char
  | _, [] => []
  | 0, l => l
  | fuel + 1, c :: rest =>
    if (c :: rest).take pat.length = pat then
      rep ++ pyReplaceAux pat rep fuel ((c :: rest).drop pat.length)
    else
      c :: pyReplaceAux pat rep fuel rest

/-- Python `str.replace(pat, rep)` for a nonempty pattern. -/
def pyReplace (l pat rep : List Char) : List Char := pyReplaceAux pat rep l.length l

/-- `BaseText.rm_lines` on the wrapped string: collapse newline runs to a
space, then the chain of `str.replace` calls from the source, ending with
replacing any leftover newline by a space. -/
def rm_lines_data (s : String) : String :=
  let c0 := collapseNL s.data
  let c1 := pyReplace c0 ['-', '\n', ' '] []
  let c2 := pyReplace c1 ['-', ' ', '\n'] []
  let c3 := pyReplace c2 ['-', '\n'] []
  let c4 := pyReplace c3 [' ', '-', ' '] []
  let c5 := pyReplace c4 ['-', ' '] []
  let c6 := pyReplace c5 [' ', '-'] []
  ⟨pyReplace c6 ['\n'] [' ']⟩

/-- Character class of `re.findall` in `rm_nonchars`: the Greek allow-list
`([ʹ-Ϋά-ϡἀ-ᾯᾰ-῾ ])` when the language option is greek, otherwise
`([A-Za-z ])`. -/
def validChar (language : String) (c : Char) : Bool :=
  if language = "greek" then
    decide ((0x374 ≤ c.toNat ∧ c.toNat ≤ 0x3AB) ∨
      (0x3AC ≤ c.toNat ∧ c.toNat ≤ 0x3E1) ∨
      (0x1F00 ≤ c.toNat ∧ c.toNat ≤ 0x1FAF) ∨
      (0x1FB0 ≤ c.toNat ∧ c.toNat ≤ 0x1FFE) ∨ c = ' ')
  else
    decide (('A' ≤ c ∧ c ≤ 'Z') ∨ ('a' ≤ c ∧ c ≤ 'z') ∨ c = ' ')

/-- `BaseText.rm_nonchars` on the wrapped string:
`"".join(re.findall(pattern, data))` keeps exactly the matching characters. -/
def rm_nonchars_data (language : String) (s : String) : String :=
  ⟨s.data.filter (validChar language)⟩

/-- Scans for the closing bracket of a lazy match `op(.*?)cl`: finds the
nearest `cl`, failing at end of input or at a newline (`.` does not match
`\n`), and returns the characters after it. -/
def findClose (cl : Char) : List Char → Option (List Char)
  | [] => none
  | c :: rest =>
    if c = '\n' then none
    else if c = cl then some rest
    else findClose cl rest

/-- One `re.sub("\op(.*?)\cl", "", s)` pass: scan left to right; at an opening
bracket delete through the nearest closing bracket when one is reachable,
otherwise keep the character and move on.  Fuel starts at the list length,
which every step strictly decreases below, so the fuel-0 branch is
unreachable. -/
def subBetweenAux (op cl : Char) : Nat → List Char → List Char
  | _, [] => []
  | 0, l => l
  | fuel + 1, c :: rest =>
    if c = op then
      match findClose cl rest with
      | some rest' => subBetweenAux op cl fuel rest'
      | none => c :: subBetweenAux op cl fuel rest
    else c :: subBetweenAux op cl fuel rest

/-- `re.sub` deleting one kind of bracket pair. -/
def subBetween (op cl : Char) (l : List Char) : List Char :=
  subBetweenAux op cl l.length l

/-- `BaseText.rm_edits` on the wrapped string: the nested `re.sub` chain,
applied square brackets first, then angle brackets, parentheses, curly braces
and the editorial double brackets. -/
def rm_edits_data (s : String) : String :=
  ⟨subBetween '〚' '〛' (subBetween '{' '}' (subBetween '(' ')'
    (subBetween '<' '>' (subBetween '[' ']' s.data))))⟩

/-! ### text/_bases.py : the BaseText object -/

/-- The option keys `BaseText.__init__` installs. -/
structure TextOptions where
  encoding : String
  language : String
  deriving DecidableEq, Repr

/-- Defaults set by `BaseText.__init__`. -/
def defaultTextOptions : TextOptions := { encoding := "utf-8", language := "english" }

/-- A caller-supplied options dict: fields present in the dict are `some`. -/
structure PartialTextOptions where
  encoding : Option String := none
  language : Option String := none
  deriving DecidableEq, Repr

/-- `dict.update`: keys present in the passed dict win. -/
def updateTextOptions (base : TextOptions) (p : PartialTextOptions) : TextOptions :=
  { encoding := p.encoding.getD base.encoding,
    language := p.language.getD base.language }

/-- A `BaseText` instance: the wrapped string plus its options. -/
structure BaseText where
  data : String
  options : TextOptions
  deriving DecidableEq, Repr

/-- `BaseText.__init__(self, text, *args, **kwargs)` from text/_bases.py:
positional arguments after `text` land in `*args` and are never read, so a
positionally passed options dict is dropped; options are taken only from the
`options` keyword, merged over the defaults. -/
def BaseText.init (text : String) (positional : List TextOptions)
    (kwOptions : Option PartialTextOptions) : BaseText :=
  match positional, kwOptions with
  | _, some p => { data := text, options := updateTextOptions defaultTextOptions p }
  | _, none => { data := text, options := defaultTextOptions }

/-- `rm_lines`: transforms the data and calls `self.__class__(clean, self.options)`
with the options passed positionally. -/
def BaseText.rm_lines (t : BaseText) : BaseText :=
  BaseText.init (rm_lines_data t.data) [t.options] none

/-- `rm_nonchars`: language-dependent filter, result built the same way. -/
def BaseText.rm_nonchars (t : BaseText) : BaseText :=
  BaseText.init (rm_nonchars_data t.options.language t.data) [t.options] none

/-- `rm_edits`: bracket stripping, result built the same way. -/
def BaseText.rm_edits (t : BaseText) : BaseText :=
  BaseText.init (rm_edits_data t.data) [t.options] none

/-- `rm_spaces`: whitespace collapse, result built the same way. -/
def BaseText.rm_spaces (t : BaseText) : BaseText :=
  BaseText.init (rm_spaces_data t.data) [t.options] none

/-! ### A small filesystem model

Regular files are a finite map from absolute path to text content (the bytes
on disk); directories are a list of absolute paths.  This is the state the
files module reads and writes. -/

structure FS where
  files : List (String × String)
  dirs : List String
  deriving DecidableEq, Repr

/-- Content of the regular file at `p`, if one exists. -/
def lookupFS (fs : FS) (p : String) : Option String :=
  (fs.files.find? (fun e => e.1 == p)).map Prod.snd

/-- `os.path.isfile`. -/
def isFileFS (fs : FS) (p : String) : Bool := (lookupFS fs p).isSome

/-- `os.path.isdir`. -/
def isDirFS (fs : FS) (p : String) : Bool := fs.dirs.contains p

/-- `os.path.exists`. -/
def existsFS (fs : FS) (p : String) : Bool := isFileFS fs p || isDirFS fs p

/-- Create or truncate-and-write the regular file at `p`. -/
def writeFS (fs : FS) (p : String) (content : String) : FS :=
  { fs with files := (p, content) :: fs.files.filter (fun e => !(e.1 == p)) }

/-- `os.path.isabs`. -/
def isabs (p : String) : Bool :=
  match p.data with
  | '/' :: _ => true
  | _ => false

/-- `os.path.abspath(os.path.join(cwd, p))` for a relative `p` and an absolute,
normalized `cwd`; normalization of `.`/`..` segments is not modeled (no claim
exercises it). -/
def joinAbs (cwd p : String) : String := ⟨cwd.data ++ '/' :: p.data⟩

/-- `os.path.dirname`: everything before the last slash. -/
def dirname (p : String) : String :=
  match p.data.reverse.dropWhile (fun c => !(c == '/')) with
  | [] => ""
  | _ :: rest => if rest.isEmpty then "/" else ⟨rest.reverse⟩

/-- `os.makedirs(os.path.dirname(p))` guarded by the existence check in
`makedirs`: records the immediate parent directory (deeper ancestors are never
consulted by the modeled operations). -/
def makedirsFS (fs : FS) (p : String) : FS :=
  if existsFS fs (dirname p) then fs else { fs with dirs := dirname p :: fs.dirs }

/-- Name of `p` as a direct child of directory `d`, if it is one. -/
def childName (d p : String) : Option String :=
  let pre := d.data ++ ['/']
  if pre.isPrefixOf p.data then
    let rest := p.data.drop pre.length
    if !rest.isEmpty && !rest.contains '/' then some (String.mk rest) else none
  else none

/-- `os.listdir`. -/
def listdirFS (fs : FS) (d : String) : List String :=
  (fs.files.map Prod.fst ++ fs.dirs).filterMap (childName d)

/-! ### files/path.py : Path -/

namespace Path

/-- `Path.__init__` from files/path.py: a falsy argument (None absent-default,
but also 0, False, empty containers, the empty string) is replaced by the
current working directory before the type check, a non-string survivor raises,
and a relative string is made absolute against the current working
directory.  Returns the stored path. -/
def init (cwd : String) (path : PyVal) : Except PyErr String :=
  let path := if !truthy path then PyVal.vStr cwd else path
  match path with
  | .vStr s => .ok (if isabs s then s else joinAbs cwd s)
  | _ => .error .construction

/-- `Path.save` from files/path.py: raises already-exists when something is at
the path and overwrite is not set, otherwise creates missing parent
directories.  The progress printing controlled by `silent` has no filesystem
effect and is not modeled. -/
def save (fs : FS) (path : String) (overwrite : Bool) : FS × Except PyErr Unit :=
  if existsFS fs path && !overwrite then (fs, .error .alreadyExists)
  else (makedirsFS fs path, .ok ())

end Path

/-! ### files/text_file.py : TextFile -/

/-- The argument `TextFile.save` receives: a single string or a list of line
strings. -/
inductive TextData where
  | str (s : String)
  | list (lines : List String)
  deriving DecidableEq, Repr

/-- Universal-newlines translation performed when reading a file opened with
`newline=None`: `\r\n` and lone `\r` become `\n`. -/
def readTranslate : List Char → List Char
  | [] => []
  | [c] => if c = '\r' then ['\n'] else [c]
  | c :: d :: rest =>
    if c = '\r' then
      if d = '\n' then '\n' :: readTranslate rest
      else '\n' :: readTranslate (d :: rest)
    else c :: readTranslate (d :: rest)

namespace TextFile

/-- `TextFile.save` from files/text_file.py with default options: runs the
`Path.save` guard (raising before anything is opened), then `open(path, 'w+')`
creates or truncates the file, then `write_file.write(data)` stores a string
argument as is (on POSIX the `newline=None` write translation is the identity)
but raises TypeError on a list, leaving the just-truncated empty file. -/
def save (fs : FS) (path : String) (data : TextData) (overwrite : Bool) :
    FS × Except PyErr Unit :=
  match Path.save fs path overwrite with
  | (_, .error e) => (fs, .error e)
  | (fs₁, .ok _) =>
    let fs₂ := writeFS fs₁ path ""
    match data with
    | .str s => (writeFS fs₂ path s, .ok ())
    | .list _ => (fs₂, .error .typeError)

/-- `TextFile.load` from files/text_file.py with default options
(`readlines=False`): raises not-found when nothing exists at the path, raises
when the path is not a regular file, otherwise returns the file content read
with universal-newlines translation. -/
def load (fs : FS) (path : String) : Except PyErr String :=
  if !existsFS fs path then .error .notFound
  else
    match lookupFS fs path with
    | some content => .ok ⟨readTranslate content.data⟩
    | none => .error .wrongKind

end TextFile

/-! ### files/folder.py : Folder -/

namespace Folder

/-- `Folder.contents`: `None` unless the path is an existing directory,
otherwise the directory listing. -/
def contents (fs : FS) (path : String) : Option (List String) :=
  if !existsFS fs path || !isDirFS fs path then none
  else some (listdirFS fs path)

/-- `Folder.length`: `len(self.contents)`; `len(None)` raises TypeError. -/
def length (fs : FS) (path : String) : Except PyErr Nat :=
  match contents fs path with
  | none => .error .typeError
  | some l => .ok l.length

end Folder

/-! ### files/_bases.py : BasePath and its per-object options -/

/-- The option keys `BasePath.__init__` installs. -/
structure BaseOptions where
  silent : Bool
  overwrite : Bool
  encoding : String
  newline : String
  readlines : Bool
  delimiter : String
  dialect : String
  extensions : List String
  deriving DecidableEq, Repr

/-- Defaults set by `BasePath.__init__`. -/
def basePathDefaults : BaseOptions :=
  { silent := false, overwrite := false, encoding := "utf-8", newline := "",
    readlines := false, delimiter := ",", dialect := "excel", extensions := ["txt"] }

/-- A caller-supplied options dict for BasePath methods: fields present in the
dict are `some`. -/
structure PartialBaseOptions where
  silent : Option Bool := none
  overwrite : Option Bool := none
  encoding : Option String := none
  newline : Option String := none
  readlines : Option Bool := none
  delimiter : Option String := none
  dialect : Option String := none
  extensions : Option (List String) := none
  deriving DecidableEq, Repr

/-- `dict.update`: keys present in the passed dict win. -/
def BaseOptions.update (base : BaseOptions) (p : PartialBaseOptions) : BaseOptions :=
  { silent := p.silent.getD base.silent, overwrite := p.overwrite.getD base.overwrite,
    encoding := p.encoding.getD base.encoding, newline := p.newline.getD base.newline,
    readlines := p.readlines.getD base.readlines,
    delimiter := p.delimiter.getD base.delimiter, dialect := p.dialect.getD base.dialect,
    extensions := p.extensions.getD base.extensions }

/-- The `options = self.options; options.update(kwargs['options'])` prologue
shared by the BasePath methods.  `options` aliases the per-object dict, so the
update writes through to the object. -/
def mergeBaseOptions (base : BaseOptions) (passed : Option PartialBaseOptions) :
    BaseOptions :=
  match passed with
  | none => base
  | some p => base.update p

/-- A `BasePath` instance from files/_bases.py: the stored absolute path plus
the per-object options dict. -/
structure BasePath where
  data : String
  options : BaseOptions
  deriving DecidableEq, Repr

namespace BasePath

/-- `BasePath.__init__`: same path handling as files/path.py (the type check
precedes the falsy default there in text but not in effect), then the default
options updated with an options keyword argument, if any. -/
def init (cwd : String) (path : PyVal) (kwOptions : Option PartialBaseOptions) :
    Except PyErr BasePath :=
  match Path.init cwd path with
  | .error e => .error e
  | .ok p => .ok { data := p, options := mergeBaseOptions basePathDefaults kwOptions }

/-- `BasePath.save` from files/_bases.py: the options prologue mutates the
object's stored options dict through the alias, then the guard
`self.exists and options['overwrite'] is not True` raises already-exists, else
parent directories are created.  Returns the object as the method leaves it,
the filesystem, and the raised/normal outcome. -/
def save (self : BasePath) (passed : Option PartialBaseOptions) (fs : FS) :
    BasePath × FS × Except PyErr Unit :=
  let options := mergeBaseOptions self.options passed
  ({ self with options := options },
    if existsFS fs self.data && !options.overwrite then (fs, .error .alreadyExists)
    else (makedirsFS fs self.data, .ok ()))

/-- `BasePath.load` from files/_bases.py: same options prologue (same aliasing
mutation), then raises not-found when nothing exists at the path. -/
def load (self : BasePath) (passed : Option PartialBaseOptions) (fs : FS) :
    BasePath × Except PyErr Unit :=
  let options := mergeBaseOptions self.options passed
  ({ self with options := options },
    if !existsFS fs self.data then .error .notFound else .ok ())

/-- `shutil.copytree(src, dest)` on the model: duplicate every file and
directory at or under `src` to the corresponding path under `dest`. -/
def copytreeFS (fs : FS) (src dest : String) : FS :=
  let redirect : String → Option String := fun p =>
    if p == src then some dest
    else if (src.data ++ ['/']).isPrefixOf p.data then
      some ⟨dest.data ++ p.data.drop src.data.length⟩
    else none
  { files := fs.files ++ fs.files.filterMap (fun e => (redirect e.1).map ((·, e.2))),
    dirs := fs.dirs ++ fs.dirs.filterMap redirect }

/-- `BasePath.copy` from files/_bases.py: the options prologue mutates the
object's stored options dict, the destination is made absolute, a populated
destination raises already-exists unless overwrite is set, then a file source
is copied with `shutil.copy` (which overwrites), a directory source with
`shutil.copytree` (which itself raises if the destination exists), anything
else raises the generic copy error; on success a fresh instance with default
options is returned for the destination. -/
def copy (cwd : String) (self : BasePath) (destination : String)
    (passed : Option PartialBaseOptions) (fs : FS) :
    BasePath × Except PyErr (BasePath × FS) :=
  let options := mergeBaseOptions self.options passed
  let dest := if isabs destination then destination else joinAbs cwd destination
  ({ self with options := options },
    if existsFS fs dest && !options.overwrite then .error .alreadyExists
    else
      match lookupFS fs self.data with
      | some content =>
        .ok ({ data := dest, options := basePathDefaults }, writeFS fs dest content)
      | none =>
        if isDirFS fs self.data && !existsFS fs dest then
          .ok ({ data := dest, options := basePathDefaults }, copytreeFS fs self.data dest)
        else .error .copyErr)

end BasePath

/-! ### Concrete fixtures used by counterexamples and witnesses -/

/-- An empty filesystem. -/
def emptyFS : FS := { files := [], dirs := [] }

/-- A filesystem holding one regular file and no directories. -/
def fileOnlyFS : FS := { files := [("/data/notes.txt", "lorem")], dirs := [] }

/-- A `BasePath` object with the default per-object options, pointing at the
file of `fileOnlyFS`. -/
def demoBaseObj : BasePath := { data := "/data/notes.txt", options := basePathDefaults }

/-- An options dict containing only `overwrite: True`. -/
def overwriteTrue : PartialBaseOptions := { overwrite := some true }

/-- The filesystem after saving the string "first" to a fresh path. -/
def firstSaveFS : FS := (TextFile.save emptyFS "/notes/a.txt" (TextData.str "first") false).1

/-! ## Helper lemmas -/

/-- Reading translation is the identity on carriage-return-free content. -/
theorem readTranslate_eq_self : ∀ l : List Char, (∀ c ∈ l, c ≠ '\r') →
    readTranslate l = l
  | [], _ => rfl
  | [c], h => by simp [readTranslate, h c (by simp)]
  | c :: d :: rest, h => by
    have hc : c ≠ '\r' := h c (by simp)
    have htail : ∀ e ∈ d :: rest, e ≠ '\r' := fun e he => h e (by simp at he ⊢; tauto)
    simp [readTranslate, hc, readTranslate_eq_self (d :: rest) htail]

/-- Looking up a just-written file returns the written content. -/
theorem lookupFS_writeFS (fs : FS) (p c : String) :
    lookupFS (writeFS fs p c) p = some c := by
  simp [lookupFS, writeFS, List.find?]

/-- Creating parent directories adds no regular file. -/
theorem lookupFS_makedirsFS (fs : FS) (p q : String) :
    lookupFS (makedirsFS fs p) q = lookupFS fs q := by
  unfold makedirsFS
  split <;> rfl

/-- Collapsing walks straight over a non-whitespace head. -/
theorem collapseWS_cons_nonws (c : Char) (l : List Char) (hc : isPySpace c = false) :
    collapseWS (c :: l) = c :: collapseWS l := by
  cases l <;> simp [collapseWS, hc]

/-- The normal form is closed under dropping the head. -/
theorem wsnormal_tail (c : Char) (l : List Char) (h : wsnormal (c :: l) = true) :
    wsnormal l = true := by
  cases l with
  | nil => rfl
  | cons d rest =>
    simp only [wsnormal, Bool.and_eq_true] at h
    exact h.2

/-- The normal form is closed under prepending a non-whitespace character. -/
theorem wsnormal_cons_nonws (c : Char) (l : List Char) (hc : isPySpace c = false)
    (h : wsnormal l = true) : wsnormal (c :: l) = true := by
  cases l with
  | nil => simp [wsnormal, hc]
  | cons d rest => simp [wsnormal, hc]; exact h

/-- The normal form is closed under prepending a space before a
non-whitespace character. -/
theorem wsnormal_space_cons (d : Char) (l : List Char) (hd : isPySpace d = false)
    (h : wsnormal (d :: l) = true) : wsnormal (' ' :: d :: l) = true := by
  simpa [wsnormal, hd] using h

/-- The whitespace collapse always produces the normal form. -/
theorem wsnormal_collapseWS : ∀ l : List Char, wsnormal (collapseWS l) = true
  | [] => rfl
  | [c] => by
    cases hc : isPySpace c <;> simp [collapseWS, wsnormal, hc]
  | c :: d :: rest => by
    have ih : wsnormal (collapseWS (d :: rest)) = true := wsnormal_collapseWS (d :: rest)
    cases hc : isPySpace c with
    | false =>
      rw [collapseWS_cons_nonws c (d :: rest) hc]
      exact wsnormal_cons_nonws c _ hc ih
    | true =>
      cases hd : isPySpace d with
      | true => simpa [collapseWS, hc, hd] using ih
      | false =>
        have hrw : collapseWS (c :: d :: rest) = ' ' :: d :: collapseWS rest := by
          simp [collapseWS, hc, hd, collapseWS_cons_nonws d rest hd]
        rw [hrw]
        have : wsnormal (d :: collapseWS rest) = true := by
          rw [← collapseWS_cons_nonws d rest hd]; exact ih
        exact wsnormal_space_cons d _ hd this

/-- The whitespace collapse is the identity on the normal form. -/
theorem collapseWS_eq_self : ∀ l : List Char, wsnormal l = true → collapseWS l = l
  | [], _ => rfl
  | [c], h => by
    cases hc : isPySpace c with
    | false => simp [collapseWS, hc]
    | true =>
      have : c = ' ' := by simpa [wsnormal, hc] using h
      simp [collapseWS, hc, this]
  | c :: d :: rest, h => by
    have htail : wsnormal (d :: rest) = true := wsnormal_tail c _ h
    have ih := collapseWS_eq_self (d :: rest) htail
    cases hc : isPySpace c with
    | false => rw [collapseWS_cons_nonws c _ hc, ih]
    | true =>
      have h' := h
      simp only [wsnormal, Bool.and_eq_true] at h'
      have hcd : c = ' ' ∧ isPySpace d = false := by
        rcases (by simpa using h'.1 :
            isPySpace c = false ∨ c = ' ' ∧ isPySpace d = false) with h0 | h0
        · rw [hc] at h0; cases h0
        · exact h0
      simp [collapseWS, hc, hcd.2, ih, hcd.1]

/-- Stripping leading whitespace leaves a non-whitespace head. -/
theorem headOK_lstrip : ∀ l : List Char, headOK (lstripWS l) = true
  | [] => rfl
  | c :: rest => by
    cases hc : isPySpace c with
    | true => simpa [lstripWS, List.dropWhile, hc] using headOK_lstrip rest
    | false => simp [lstripWS, List.dropWhile, hc, headOK]

/-- Stripping leading whitespace is the identity when the head is already
non-whitespace. -/
theorem lstrip_eq_self (l : List Char) (h : headOK l = true) : lstripWS l = l := by
  cases l with
  | nil => rfl
  | cons c rest =>
    have : isPySpace c = false := by simpa [headOK] using h
    simp [lstripWS, List.dropWhile, this]

/-- Stripping leading whitespace preserves the normal form. -/
theorem wsnormal_lstrip : ∀ l : List Char, wsnormal l = true →
    wsnormal (lstripWS l) = true
  | [], _ => rfl
  | c :: rest, h => by
    cases hc : isPySpace c with
    | true =>
      simpa [lstripWS, List.dropWhile, hc] using
        wsnormal_lstrip rest (wsnormal_tail c rest h)
    | false => simpa [lstripWS, List.dropWhile, hc] using h

/-- `rstripWS` on a nonempty list is empty or keeps the original head. -/
theorem rstripWS_head (c : Char) (rest : List Char) :
    rstripWS (c :: rest) = [] ∨ ∃ t, rstripWS (c :: rest) = c :: t := by
  simp only [rstripWS]
  split
  · split
    · exact Or.inl rfl
    · exact Or.inr ⟨[], rfl⟩
  · exact Or.inr ⟨rstripWS rest, rfl⟩

/-- Stripping trailing whitespace preserves the normal form. -/
theorem wsnormal_rstrip : ∀ l : List Char, wsnormal l = true →
    wsnormal (rstripWS l) = true
  | [], _ => rfl
  | c :: rest, h => by
    have ih := wsnormal_rstrip rest (wsnormal_tail c rest h)
    cases hr : rstripWS rest with
    | nil =>
      cases hc : isPySpace c <;> simp [rstripWS, hr, hc, wsnormal]
    | cons x t =>
      have hres : rstripWS (c :: rest) = c :: x :: t := by
        simp [rstripWS, hr]
      rw [hres]
      have hxt : wsnormal (x :: t) = true := by rw [← hr]; exact ih
      cases rest with
      | nil => simp [rstripWS] at hr
      | cons d rest' =>
        have hxd : x = d := by
          rcases rstripWS_head d rest' with h0 | ⟨t', ht'⟩
          · rw [h0] at hr; cases hr
          · rw [ht'] at hr; exact (List.cons.injEq _ _ _ _ ▸ hr).1.symm
        have h' := h
        simp only [wsnormal, Bool.and_eq_true] at h'
        subst hxd
        simp [wsnormal, hxt]
        simpa using h'.1

/-- Stripping trailing whitespace leaves a non-whitespace last character. -/
theorem lastOK_rstrip : ∀ l : List Char, lastOK (rstripWS l) = true
  | [] => rfl
  | c :: rest => by
    have ih := lastOK_rstrip rest
    cases hr : rstripWS rest with
    | nil =>
      cases hc : isPySpace c <;> simp [rstripWS, hr, hc, lastOK]
    | cons x t =>
      have hres : rstripWS (c :: rest) = c :: x :: t := by
        simp [rstripWS, hr]
      rw [hres]
      have : lastOK (c :: x :: t) = lastOK (x :: t) := by simp [lastOK]
      rw [this, ← hr]
      exact ih

/-- Stripping trailing whitespace is the identity when the last character is
already non-whitespace. -/
theorem rstrip_eq_self : ∀ l : List Char, lastOK l = true → rstripWS l = l
  | [], _ => rfl
  | c :: rest, h => by
    cases rest with
    | nil =>
      have : isPySpace c = false := by simpa [lastOK] using h
      simp [rstripWS, this]
    | cons d rest' =>
      have htail : lastOK (d :: rest') = true := by simpa [lastOK] using h
      have ih := rstrip_eq_self (d :: rest') htail
      have step : ∀ rest : List Char, rstripWS (c :: rest) =
          (if (rstripWS rest).isEmpty then (if isPySpace c then [] else [c])
            else c :: rstripWS rest) := fun rest => rfl
      rw [step (d :: rest'), ih]
      simp

/-- Stripping trailing whitespace preserves a non-whitespace head. -/
theorem headOK_rstrip (l : List Char) (h : headOK l = true) :
    headOK (rstripWS l) = true := by
  cases l with
  | nil => rfl
  | cons c rest =>
    have hc : isPySpace c = false := by simpa [headOK] using h
    cases hr : rstripWS rest with
    | nil => simp [rstripWS, hr, hc, headOK]
    | cons x t => simp [rstripWS, hr, headOK, hc]

/-- Idempotence of the whitespace collapse-and-strip at the character-list
level. -/
theorem rm_spaces_list_idem (l : List Char) :
    rstripWS (lstripWS (collapseWS (rstripWS (lstripWS (collapseWS l)))))
      = rstripWS (lstripWS (collapseWS l)) := by
  have h1 : wsnormal (collapseWS l) = true := wsnormal_collapseWS l
  have h2 : wsnormal (lstripWS (collapseWS l)) = true := wsnormal_lstrip _ h1
  have h3 : wsnormal (rstripWS (lstripWS (collapseWS l))) = true := wsnormal_rstrip _ h2
  have h4 := collapseWS_eq_self _ h3
  have h5 : headOK (lstripWS (collapseWS l)) = true := headOK_lstrip _
  have h6 : headOK (rstripWS (lstripWS (collapseWS l))) = true := headOK_rstrip _ h5
  have h7 := lstrip_eq_self _ h6
  have h8 : lastOK (rstripWS (lstripWS (collapseWS l))) = true := lastOK_rstrip _
  have h9 := rstrip_eq_self _ h8
  rw [h4, h7, h9]

/-! ## Claim theorems -/

/-- C1, counterexample: with `max_retries = 3` and the host unreachable,
`fetch` does not make 4 total request attempts before returning. -/
theorem fetch_unreachable_attempts_not_four :
    WebPage.fetch_unreachable 3 0 ≠ some (none, 4) := by
  simp [WebPage.fetch_unreachable]

/-- C1, amended: with `max_retries = 3` and every request attempt failing,
`fetch` returns Python `None` rather than raising, after exactly 5 total
request attempts: the initial one plus 4 retries, the guard
`retry_counter <= max_retries` admitting the counters 0, 1, 2 and 3. -/
theorem fetch_unreachable_returns_none_after_five_attempts :
    WebPage.fetch_unreachable 3 0 = some (none, 5) := by
  simp [WebPage.fetch_unreachable]

/-- C2, counterexample: `rm_edits` on the documented input does not produce
the documented output string. -/
theorem rm_edits_example_not_spec_output :
    (BaseText.init "Lore[m i]psum {dolo}r sit a(met)..." [] none).rm_edits.data ≠
      "Lor psum r sit a..." := by decide

/-- C2, amended: `rm_edits` on `"Lore[m i]psum {dolo}r sit a(met)..."` yields
`"Lorepsum r sit a..."`: each bracketed span is removed together with its
brackets and nothing else changes, so nothing reinserts the space the
docstring example shows and the `e` of `Lore` survives. -/
theorem rm_edits_bracket_scenario :
    (BaseText.init "Lore[m i]psum {dolo}r sit a(met)..." [] none).rm_edits.data =
      "Lorepsum r sit a..." := by decide

/-- C3, counterexample: one `BasePath.save` call with a per-call
`overwrite: True` override leaves the object's stored options with
`overwrite = True`, so the stored per-object defaults are not the same after
the call as before it. -/
theorem basepath_save_mutates_stored_options :
    demoBaseObj.options.overwrite = false ∧
      (BasePath.save demoBaseObj (some overwriteTrue) fileOnlyFS).1.options.overwrite
        = true := by decide

/-- C3, amended: in `BasePath` the per-call options override is merged into
the object's stored options through an alias and persists after the call:
with something at the path and `overwrite` initially unset, a plain `save`
raises already-exists, a `save` with an `overwrite: True` override succeeds
and flips the stored `overwrite` to `True`, and a later `save` without any
options then also succeeds instead of raising; `copy` and `load` run the same
mutating prologue. -/
theorem basepath_override_persists (self : BasePath) (fs : FS)
    (cwd destination : String)
    (hex : existsFS fs self.data = true) (how : self.options.overwrite = false) :
    (BasePath.save self none fs).2.2 = .error .alreadyExists ∧
    (BasePath.save self (some overwriteTrue) fs).2.2 = .ok () ∧
    (BasePath.save self (some overwriteTrue) fs).1.options.overwrite = true ∧
    (BasePath.save (BasePath.save self (some overwriteTrue) fs).1 none fs).2.2 = .ok () ∧
    (BasePath.copy cwd self destination (some overwriteTrue) fs).1.options.overwrite
      = true ∧
    (BasePath.load self (some overwriteTrue) fs).1.options.overwrite = true := by
  refine ⟨?_, ?_, ?_, ?_, ?_, ?_⟩ <;>
    simp [BasePath.save, BasePath.copy, BasePath.load, mergeBaseOptions,
      BaseOptions.update, overwriteTrue, hex, how]

/-- C3, witness for `basepath_override_persists` at a concrete object and
filesystem. -/
theorem basepath_override_persists_witness :
    (existsFS fileOnlyFS demoBaseObj.data = true ∧
      demoBaseObj.options.overwrite = false) ∧
    ((BasePath.save demoBaseObj none fileOnlyFS).2.2 = .error .alreadyExists ∧
     (BasePath.save demoBaseObj (some overwriteTrue) fileOnlyFS).2.2 = .ok () ∧
     (BasePath.save demoBaseObj (some overwriteTrue) fileOnlyFS).1.options.overwrite
        = true ∧
     (BasePath.save (BasePath.save demoBaseObj (some overwriteTrue) fileOnlyFS).1
        none fileOnlyFS).2.2 = .ok () ∧
     (BasePath.copy "/home" demoBaseObj "/data/copy.txt" (some overwriteTrue)
        fileOnlyFS).1.options.overwrite = true ∧
     (BasePath.load demoBaseObj (some overwriteTrue) fileOnlyFS).1.options.overwrite
        = true) :=
  ⟨⟨by decide, by decide⟩,
    basepath_override_persists demoBaseObj fileOnlyFS "/home" "/data/copy.txt"
      (by decide) (by decide)⟩

/-- C4: when a regular file is already stored at the path, `TextFile.save`
without the overwrite option raises the already-exists error before opening
anything, and the bytes stored at the path afterwards are exactly the bytes
that were there before. -/
theorem textfile_save_overwrite_guard (fs : FS) (path s₀ : String) (data : TextData)
    (h : lookupFS fs path = some s₀) :
    (TextFile.save fs path data false).2 = .error .alreadyExists ∧
      lookupFS (TextFile.save fs path data false).1 path = some s₀ := by
  have hex : existsFS fs path = true := by simp [existsFS, isFileFS, h]
  simp [TextFile.save, Path.save, hex, h]

/-- C4, witness: saving twice at a fresh path without overwrite raises on the
second call and the file still holds the first call's content. -/
theorem textfile_save_overwrite_guard_witness :
    lookupFS firstSaveFS "/notes/a.txt" = some "first" ∧
      ((TextFile.save firstSaveFS "/notes/a.txt" (TextData.str "second") false).2
          = .error .alreadyExists ∧
        lookupFS (TextFile.save firstSaveFS "/notes/a.txt" (TextData.str "second") false).1
          "/notes/a.txt" = some "first") :=
  ⟨by decide,
    textfile_save_overwrite_guard firstSaveFS "/notes/a.txt" "first"
      (TextData.str "second") (by decide)⟩

/-- C5: `TextFile.save` handed a list of line strings at a fresh path does
not rejoin them with newlines; `write()` rejects the list with a TypeError,
and the file, already created and truncated by `open(..., 'w+')`, is left
empty. -/
theorem textfile_save_list_raises_type_error :
    (TextFile.save emptyFS "/docs/a.txt" (TextData.list ["line one", "line two"])
        false).2 = .error .typeError ∧
      lookupFS (TextFile.save emptyFS "/docs/a.txt"
        (TextData.list ["line one", "line two"]) false).1 "/docs/a.txt"
        = some "" := by decide

/-- C6, counterexample: the falsy non-string `0` passed as the path argument
does not raise; construction succeeds and stores the current working
directory. -/
theorem path_init_zero_defaults_to_cwd :
    Path.init "/home/user" (PyVal.vInt 0) = .ok "/home/user" := by decide

/-- C6, amended: a non-string path argument raises the construction error only
when it is truthy; every falsy argument — None, 0, False, an empty list, the
empty string — is replaced by the current working directory before the type
check and is accepted. -/
theorem path_init_nonstring_classification (cwd : String) (arg : PyVal)
    (hcwd : isabs cwd = true) (h : isStr arg = false) :
    Path.init cwd arg =
      (if truthy arg then .error .construction else .ok cwd) := by
  cases arg with
  | vStr s => simp [isStr] at h
  | vNone => simp [Path.init, truthy, hcwd]
  | vInt n =>
    by_cases hn : n = 0
    · subst hn; simp [Path.init, truthy, hcwd]
    · simp [Path.init, truthy, hn]
  | vBool b => cases b <;> simp [Path.init, truthy, hcwd]
  | vList l =>
    match l with
    | [] => simp [Path.init, truthy, hcwd]
    | x :: xs => simp [Path.init, truthy]

/-- C6, witness for `path_init_nonstring_classification` at the falsy
non-string `[]` against an absolute working directory. -/
theorem path_init_nonstring_classification_witness :
    (isabs "/home/user" = true ∧ isStr (PyVal.vList []) = false) ∧
      Path.init "/home/user" (PyVal.vList []) =
        (if truthy (PyVal.vList []) then .error .construction
          else .ok "/home/user") :=
  ⟨⟨by decide, by decide⟩,
    path_init_nonstring_classification "/home/user" (PyVal.vList [])
      (by decide) (by decide)⟩

/-- C7, counterexample: a string containing a carriage return does not survive
the save/load round trip: universal-newlines reading turns `"a\rb"` into
`"a\nb"`. -/
theorem textfile_roundtrip_carriage_return_fails :
    TextFile.load (TextFile.save emptyFS "/t.txt"
        (TextData.str "a\rb") false).1 "/t.txt" = .ok "a\nb" ∧
      ("a\nb" : String) ≠ "a\rb" := by decide

/-- C7, amended: for every carriage-return-free string `s` and every path
where nothing exists, `save(s)` followed by `load()` returns `s` exactly;
a `\r` in `s` would instead be normalized to `\n` on read. -/
theorem textfile_roundtrip_no_carriage_return (fs : FS) (path s : String)
    (h1 : existsFS fs path = false) (h2 : ∀ c ∈ s.data, c ≠ '\r') :
    TextFile.load (TextFile.save fs path (TextData.str s) false).1 path
      = .ok s := by
  have hsave : (TextFile.save fs path (TextData.str s) false).1
      = writeFS (writeFS (makedirsFS fs path) path "") path s := by
    simp [TextFile.save, Path.save, h1]
  have hlook : lookupFS (TextFile.save fs path (TextData.str s) false).1 path
      = some s := by
    rw [hsave]; exact lookupFS_writeFS _ _ _
  have hex : existsFS (TextFile.save fs path (TextData.str s) false).1 path = true := by
    simp [existsFS, isFileFS, hlook]
  simp [TextFile.load, hex, hlook, readTranslate_eq_self s.data h2]

/-- C7, witness for `textfile_roundtrip_no_carriage_return`: "Hello world"
round-trips exactly through a fresh path. -/
theorem textfile_roundtrip_no_carriage_return_witness :
    (existsFS emptyFS "/greetings.txt" = false ∧
      ∀ c ∈ ("Hello world" : String).data, c ≠ '\r') ∧
    TextFile.load (TextFile.save emptyFS "/greetings.txt"
        (TextData.str "Hello world") false).1 "/greetings.txt"
      = .ok "Hello world" :=
  ⟨⟨by decide, by decide⟩,
    textfile_roundtrip_no_carriage_return emptyFS "/greetings.txt" "Hello world"
      (by decide) (by decide)⟩

/-- C8: `rm_spaces` is idempotent: for every text value, applying it twice
yields the same wrapped string as applying it once. -/
theorem rm_spaces_idempotent (t : BaseText) :
    t.rm_spaces.rm_spaces.data = t.rm_spaces.data := by
  show rm_spaces_data (rm_spaces_data t.data) = rm_spaces_data t.data
  unfold rm_spaces_data
  exact congrArg String.mk (rm_spaces_list_idem t.data.data)

/-- C9: a cleanup transform on a `BaseText` built with a non-default
configuration returns an instance carrying the default configuration, not the
receiver's: `rm_spaces` on a text configured with `language: greek` yields a
text whose options are the defaults (language english), while the receiver
still holds (and is not mutated away from) its greek configuration. -/
theorem rm_spaces_drops_receiver_options :
    ((BaseText.init "Lorem   ipsum" []
        (some { language := some "greek" })).rm_spaces.options = defaultTextOptions)
      ∧ (BaseText.init "Lorem   ipsum" []
          (some { language := some "greek" })).options.language = "greek" := by
  decide

/-- C10: on a path that is not an existing directory (a regular file here, a
nonexistent path behaves the same), `Folder.contents` returns `None` rather
than a list, and `Folder.length` consequently raises (`len(None)`) instead of
returning 0. -/
theorem folder_contents_none_and_length_raises (fs : FS) (path : String)
    (h : isDirFS fs path = false) :
    Folder.contents fs path = none ∧
      Folder.length fs path = .error .typeError := by
  have hc : Folder.contents fs path = none := by simp [Folder.contents, h]
  exact ⟨hc, by simp [Folder.length, hc]⟩

/-- C10, witness for `folder_contents_none_and_length_raises` at a regular
file. -/
theorem folder_contents_none_and_length_raises_witness :
    isDirFS fileOnlyFS "/data/notes.txt" = false ∧
      (Folder.contents fileOnlyFS "/data/notes.txt" = none ∧
        Folder.length fileOnlyFS "/data/notes.txt" = .error .typeError) :=
  ⟨by decide, folder_contents_none_and_length_raises fileOnlyFS "/data/notes.txt"
    (by decide)⟩

end Dhelp
